import Mathlib

/-!
Verification development for the sitemap-URL-extraction pipeline.

The two governing modules are embedded shallowly:

* `sitemap_parser.py` — `is_gzip`, `fetch_sitemap_content`, and the
  breadth-first traversal `extract_urls_recursive`.  The network is a
  parameter (`net : String → FetchResult`): fetching-plus-parsing of a
  sitemap URL is the data the while loop consumes, so the loop body is
  translated statement by statement over an explicit `CrawlState`.  The
  Python `while` loop becomes a fuel-indexed recursion `crawlLoop`; the
  returned `Bool` is `true` exactly when the loop exited by its own
  condition (queue empty, cap reached, or `should_stop`), `false` when
  the fuel ran out first.  Python sets (`seen_urls`,
  `processed_sitemaps_set`) are represented by lists queried with `∈`;
  `processed_sitemaps_set` always holds the same elements as the
  `processed_sitemaps` list, so the list itself serves as the set.
  `fetch_log` instruments the single call site of
  `fetch_sitemap_content` inside the loop: it records every sitemap URL
  actually fetched, in order.

* `seo_analyzer.py` — `fetch_url`, `bounded_fetch` and the progress
  accounting of `analyze_urls`.  A probe's network behaviour is a
  `GetOutcome` (the `session.get` call raises, or yields a response
  whose body streaming either raises or delivers a parsed document).
  BeautifulSoup parsing is abstracted to the two queries `fetch_url`
  makes of it: the `content` attribute of `meta name=robots` and the
  `href` attribute of `link rel=canonical`.  Python truthiness tests on
  optional strings (`if result['canonical']:` …) are translated by
  `pyTruthy`, which is false on both `none` and `some ""`.
-/

/-! ## Bytes and gzip handling (`is_gzip`, `fetch_sitemap_content`) -/

/-- Raw bytes, one `Nat < 256` per byte. -/
abbrev Bytes := List Nat

/-- `is_gzip(content)`: first two bytes are the gzip magic `0x1f 0x8b`. -/
def is_gzip (content : Bytes) : Bool :=
  decide (content.take 2 = [0x1f, 0x8b])

/-- Outcome of `gzip.decompress` on given bytes, classified by the Python
exception hierarchy: success, an `OSError` (this includes
`gzip.BadGzipFile`), or an exception that is *not* an `OSError`
(`EOFError` on a truncated stream, `zlib.error` on corrupt deflate data),
carrying its message.  The decompressor itself is a parameter of the
model. -/
inductive GzipOutcome where
  | ok (out : Bytes)
  | osError
  | otherError (msg : String)
deriving DecidableEq, Repr

/-- Outcome of `requests.get(url, ...)` followed by
`response.raise_for_status()` in `fetch_sitemap_content`: either an
exception with message `msg`, or a body `content`. -/
inductive SitemapGetOutcome where
  | failure (msg : String)
  | ok (content : Bytes)
deriving DecidableEq, Repr

/-- `needle` is a prefix of `hay` (on character lists). -/
def charsPrefix : List Char → List Char → Bool
  | [], _ => true
  | _ :: _, [] => false
  | a :: as, b :: bs => a == b && charsPrefix as bs

/-- `needle` occurs as a contiguous run inside `hay` (on character
lists). -/
def charsInfix (needle : List Char) : List Char → Bool
  | [] => charsPrefix needle []
  | b :: bs => charsPrefix needle (b :: bs) || charsInfix needle bs

/-- Python `url.endswith(suffix)`. -/
def strEndsWith (s suffix : String) : Bool :=
  charsPrefix suffix.data.reverse s.data.reverse

/-- Python `s.lower()` (character-wise lowercasing). -/
def strToLower (s : String) : String :=
  ⟨s.data.map Char.toLower⟩

/-- `fetch_sitemap_content(url)` from `sitemap_parser.py`, with the network
response and the gzip decompressor as parameters.  Returns
`(content, error_msg)` exactly as the Python does: the inner
`except OSError: pass` keeps the raw bytes, while any other exception
raised by `gzip.decompress` escapes to the outer `except Exception` and
becomes a fetch error. -/
def fetch_sitemap_content (gzipDecompress : Bytes → GzipOutcome)
    (net : SitemapGetOutcome) (url : String) : Option Bytes × Option String :=
  match net with
  | .failure msg => (none, some ("Error fetching " ++ url ++ ": " ++ msg))
  | .ok content =>
    if is_gzip content || strEndsWith url ".gz" then
      match gzipDecompress content with
      | .ok out => (some out, none)
      | .osError => (some content, none)
      | .otherError m => (none, some ("Error fetching " ++ url ++ ": " ++ m))
    else (some content, none)

/-! ## The traversal engine (`extract_urls_recursive`) -/

/-- One entry of `all_urls`: the dict
`{'sitemap_url': u, 'source_sitemap': current_sitemap}`. -/
structure LeafUrlRecord where
  sitemap_url : String
  source_sitemap : String
deriving DecidableEq, Repr

/-- What `parse_sitemap` returns for one fetched document:
`(final_urls, sitemap_index_urls)`. -/
structure SitemapDoc where
  final_urls : List String
  sitemap_index_urls : List String
deriving DecidableEq, Repr

/-- Result of `fetch_sitemap_content` + `parse_sitemap` for one sitemap URL
as consumed by the traversal loop: either `error_msg` was set, or a parsed
document. -/
inductive FetchResult where
  | err (msg : String)
  | ok (doc : SitemapDoc)
deriving DecidableEq, Repr

/-- The mutable locals of `extract_urls_recursive`.  `fetch_log` records
each URL passed to `fetch_sitemap_content`, in call order; `iter` counts
executed loop-body iterations (it feeds the `should_stop` callback). -/
structure CrawlState where
  all_urls : List LeafUrlRecord
  seen_urls : List String
  to_process : List String
  processed_sitemaps : List String
  errors : List String
  fetch_log : List String
  iter : Nat
deriving DecidableEq, Repr

/-- The `for u in urls` loop of `extract_urls_recursive` (lines 83–88):
append each unseen URL as a record sourced from `src`, and break as soon
as `len(all_urls) >= max_urls`. -/
def addUrls (max_urls : Int) (src : String) :
    List String → List LeafUrlRecord → List String →
    List LeafUrlRecord × List String
  | [], all, seen => (all, seen)
  | u :: rest, all, seen =>
    if u ∈ seen then addUrls max_urls src rest all seen
    else
      let all2 := all ++ [⟨u, src⟩]
      if (all2.length : Int) ≥ max_urls then (all2, u :: seen)
      else addUrls max_urls src rest all2 (u :: seen)

/-- `if should_stop and should_stop():` — the optional cancellation
callback, modelled as a function of the iteration count. -/
def stopNow (stop : Option (Nat → Bool)) (k : Nat) : Bool :=
  match stop with
  | none => false
  | some f => f k

/-- The `while to_process and len(all_urls) < max_urls` loop of
`extract_urls_recursive`, fuel-indexed.  The `Bool` is `true` iff the
loop exited by its own tests rather than by exhausting fuel. -/
def crawlLoop (net : String → FetchResult) (max_urls : Int)
    (stop : Option (Nat → Bool)) :
    Nat → CrawlState → CrawlState × Bool
  | 0, st => (st, false)
  | fuel + 1, st =>
    match st.to_process with
    | [] => (st, true)
    | current :: rest =>
      if (st.all_urls.length : Int) ≥ max_urls then (st, true)
      else if stopNow stop st.iter then (st, true)
      else if current ∈ st.processed_sitemaps then
        crawlLoop net max_urls stop fuel
          { st with to_process := rest, iter := st.iter + 1 }
      else
        match net current with
        | .err msg =>
          crawlLoop net max_urls stop fuel
            { st with
              to_process := rest
              iter := st.iter + 1
              processed_sitemaps := st.processed_sitemaps ++ [current]
              fetch_log := st.fetch_log ++ [current]
              errors := st.errors ++ [msg] }
        | .ok doc =>
          let pr := addUrls max_urls current doc.final_urls
            st.all_urls st.seen_urls
          crawlLoop net max_urls stop fuel
            { all_urls := pr.1
              seen_urls := pr.2
              to_process := rest ++ doc.sitemap_index_urls.filter
                (fun c => !decide (c ∈ st.processed_sitemaps ++ [current]))
              processed_sitemaps := st.processed_sitemaps ++ [current]
              errors := st.errors
              fetch_log := st.fetch_log ++ [current]
              iter := st.iter + 1 }

/-- The initial locals of `extract_urls_recursive(url, ...)`. -/
def initState (url : String) : CrawlState :=
  { all_urls := [], seen_urls := [], to_process := [url],
    processed_sitemaps := [], errors := [], fetch_log := [], iter := 0 }

/-- `extract_urls_recursive(url, max_urls, should_stop)`: run the loop
from the fresh state.  The returned triple of the Python function is the
`all_urls`, `processed_sitemaps` and `errors` fields of the final state. -/
def extract_urls_recursive (net : String → FetchResult) (url : String)
    (max_urls : Int) (stop : Option (Nat → Bool)) (fuel : Nat) :
    CrawlState × Bool :=
  crawlLoop net max_urls stop fuel (initState url)

/-! ## The URL prober (`fetch_url` in `seo_analyzer.py`) -/

/-- The dict initialised at the top of `fetch_url`; field defaults are the
values it starts from. -/
structure SeoProbeResult where
  sitemap_url : String
  final_status : Option Int := none
  redirect_location : Option String := none
  canonical : Option String := none
  canonical_match : Bool := false
  noindex : Bool := false
  noindex_source : Option String := none
  fetch_error : Option String := none
deriving DecidableEq, Repr

/-- An exception escaping a network operation in `fetch_url`, classified by
the three `except` clauses: `asyncio.TimeoutError`, `RequestsError`, or any
other `Exception`. -/
inductive ProbeExc where
  | timeout
  | requests (msg : String)
  | other (msg : String)
deriving DecidableEq, Repr

/-- The `fetch_error` string each `except` clause stores. -/
def probeExcMsg : ProbeExc → String
  | .timeout => "Timeout"
  | .requests msg => "RequestError: " ++ msg
  | .other msg => "Error: " ++ msg

/-- What `fetch_url` extracts from the response body: BeautifulSoup is
abstracted to the two queries made of the parsed document.
`meta_robots = some c` means a `meta name="robots"` tag was found and
`tag.get('content', '')` returned `c` (so a tag without the attribute is
`some ""`); `canonical_href = some h` means a `link rel="canonical"` tag
was found and `tag.get('href')` returned `h` (`none` when the attribute is
missing). -/
structure HtmlDoc where
  meta_robots : Option String := none
  canonical_href : Option (Option String) := none
deriving DecidableEq, Repr

/-- Outcome of streaming the body via `response.aiter_content()`: an
exception mid-stream, or the (truncated, permissively decoded, parsed)
document. -/
inductive BodyOutcome where
  | failure (e : ProbeExc)
  | ok (doc : HtmlDoc)
deriving DecidableEq, Repr

/-- One HTTP response as observed by `fetch_url`: status code, headers
(an association list looked up with `.get`), and the body stream. -/
structure HttpResponse where
  status_code : Int
  headers : List (String × String) := []
  body : BodyOutcome := .ok {}
deriving DecidableEq, Repr

/-- Outcome of `await session.get(url, ...)`: the call raises, or yields a
response. -/
inductive GetOutcome where
  | failure (e : ProbeExc)
  | response (r : HttpResponse)
deriving DecidableEq, Repr

/-- `headers.get(key, default)`. -/
def headerGetD (headers : List (String × String)) (key dflt : String) :
    String :=
  (headers.lookup key).getD dflt

/-- Python truthiness of an optional string: `None` and `''` are falsy. -/
def pyTruthy : Option String → Bool
  | none => false
  | some s => !(s == "")

/-- Python `needle in hay` on strings: substring containment. -/
def pyIn (needle hay : String) : Bool :=
  charsInfix needle.data hay.data

/-- `'noindex' in x or 'none' in x` — the robots-directive test applied to
a lowercased header or attribute value. -/
def hasNoindexToken (x : String) : Bool :=
  pyIn "noindex" x || pyIn "none" x

/-- `any(x in content_type for x in ['image', 'pdf', 'video', 'audio',
'zip', 'octet-stream'])`. -/
def isBinaryContentType (content_type : String) : Bool :=
  ["image", "pdf", "video", "audio", "zip", "octet-stream"].any
    (fun x => pyIn x content_type)

/-- The redirect tuple `(301, 302, 303, 307, 308)`. -/
def redirectCodes : List Int := [301, 302, 303, 307, 308]

/-- Steps 2–3 (binary branch) and step 3 (HTML branch) of `fetch_url`: the
`X-Robots-Tag` header check, applied to the already-lowercased header
value. -/
def stepXRobots (x_robots : String) (result : SeoProbeResult) :
    SeoProbeResult :=
  if hasNoindexToken x_robots then
    { result with noindex := true, noindex_source := some "Header" }
  else result

/-- Step 5 of `fetch_url`: the `meta name="robots"` check on the parsed
body, upgrading `noindex_source` to `"Both"` when the header already set
it. -/
def stepMetaRobots (doc : HtmlDoc) (result : SeoProbeResult) :
    SeoProbeResult :=
  match doc.meta_robots with
  | none => result
  | some content_attr =>
    if hasNoindexToken (strToLower content_attr) then
      { result with
        noindex := true
        noindex_source :=
          some (if pyTruthy result.noindex_source then "Both" else "Meta") }
    else result

/-- Step 6 of `fetch_url`: record the `href` of a `link rel="canonical"`
tag if one was found (the `Link`-header fallback in the source is
`pass`). -/
def stepCanonical (doc : HtmlDoc) (result : SeoProbeResult) :
    SeoProbeResult :=
  match doc.canonical_href with
  | none => result
  | some href => { result with canonical := href }

/-- Step 7 of `fetch_url`: `if result['canonical']:` set `canonical_match`
by strict string comparison with the probed URL. -/
def stepMatch (url : String) (result : SeoProbeResult) : SeoProbeResult :=
  if pyTruthy result.canonical then
    { result with canonical_match := result.canonical == some url }
  else result

/-- `fetch_url(session, url)`, with the network behaviour of the session at
`url` as the `GetOutcome` parameter.  Mirrors the numbered steps of the
source: redirect short-circuit, binary content-type short-circuit,
`X-Robots-Tag`, body streaming, `meta robots`, canonical link, strict
canonical match.  The `utf-8` decode uses `errors='ignore'` and cannot
raise, and the `Link`-header branch is `pass`, so neither appears. -/
def fetch_url (net : GetOutcome) (url : String) : SeoProbeResult :=
  let result : SeoProbeResult := { sitemap_url := url }
  match net with
  | .failure e => { result with fetch_error := some (probeExcMsg e) }
  | .response r =>
    let result := { result with final_status := some r.status_code }
    if r.status_code ∈ redirectCodes then
      { result with redirect_location := r.headers.lookup "Location" }
    else
      let content_type := strToLower (headerGetD r.headers "Content-Type" "")
      if isBinaryContentType content_type then
        stepXRobots (strToLower (headerGetD r.headers "X-Robots-Tag" "")) result
      else
        let result :=
          stepXRobots (strToLower (headerGetD r.headers "X-Robots-Tag" ""))
            result
        match r.body with
        | .failure e => { result with fetch_error := some (probeExcMsg e) }
        | .ok doc =>
          stepMatch url (stepCanonical doc (stepMetaRobots doc result))

/-! ## The probe scheduler (`bounded_fetch`, `analyze_urls`) -/

/-- `bounded_fetch(sem, session, url)`: the `for attempt in range(2)` retry
loop.  The two `GetOutcome`s are the network behaviours the two successive
`fetch_url` calls would observe.  Returns the final result together with
the number of `fetch_url` calls made (1 or 2); the semaphore and the
`asyncio.sleep(0.5)` backoff are timing, not data, and are not modelled. -/
def bounded_fetch (net1 net2 : GetOutcome) (url : String) :
    SeoProbeResult × Nat :=
  let res := fetch_url net1 url
  if !pyTruthy res.fetch_error then (res, 1)
  else (fetch_url net2 url, 2)

/-- The completion loop of `analyze_urls` (lines 129–144): iterate over
results in completion order; on each iteration first poll `should_stop`
(cancelling and breaking when true), otherwise append the result, bump
`completed`, and call the progress callback with `completed / total`.
Python's float division is modelled in `ℚ`.  Returns the collected
results and the list of values passed to the progress callback. -/
def analyzeLoop (total : Nat) (stop : Option (Nat → Bool)) :
    List SeoProbeResult → Nat → List SeoProbeResult → List ℚ →
    List SeoProbeResult × List ℚ
  | [], _, results, progress => (results, progress)
  | res :: pending, completed, results, progress =>
    if stopNow stop completed then (results, progress)
    else
      analyzeLoop total stop pending (completed + 1) (results ++ [res])
        (progress ++ [((completed + 1 : ℚ)) / (total : ℚ)])

/-- `analyze_urls(urls, progress_callback, should_stop)`, observed at the
progress callback: `completions` is the sequence of per-URL probe results
in completion order (`asyncio.as_completed` yields them in some order; the
progress accounting depends only on that sequence). -/
def analyze_urls (completions : List SeoProbeResult)
    (stop : Option (Nat → Bool)) : List SeoProbeResult × List ℚ :=
  analyzeLoop completions.length stop completions 0 [] []

/-! ## Measuring definitions and concrete fixtures

`freshCount` states, in the spec's terms, how many *new* leaf URLs a
document supplies; `crawlUniverse` / `totalChildren` / `crawlMeasure`
bound the traversal of a finite sitemap graph given as an association
list of documents (`netOf`).  The `ex…` definitions are concrete inputs
used to instantiate the theorems. -/

/-- The number of distinct, not-yet-seen URLs in a document's `loc` list —
"how many new leaf URLs this document supplies". -/
def freshCount (seen : List String) : List String → Nat
  | [] => 0
  | u :: rest =>
    if u ∈ seen then freshCount seen rest
    else freshCount (u :: seen) rest + 1

/-- A finite sitemap graph: fetching-plus-parsing behaves per the
association list, and any URL outside it is unreachable (a fetch
error). -/
def netOf (docs : List (String × FetchResult)) : String → FetchResult :=
  fun u =>
    match docs.lookup u with
    | some r => r
    | none => .err ("Error fetching " ++ u ++ ": unreachable")

/-- Every sitemap URL that can ever enter the frontier: the seed plus all
child references of all documents (deduplicated). -/
def crawlUniverse (seed : String) (docs : List (String × FetchResult)) :
    List String :=
  (seed :: (docs.map fun p =>
    match p.2 with
    | .ok doc => doc.sitemap_index_urls
    | .err _ => []).flatten).dedup

/-- Total number of child references over all documents of the graph. -/
def totalChildren (docs : List (String × FetchResult)) : Nat :=
  (docs.map fun p =>
    match p.2 with
    | .ok doc => doc.sitemap_index_urls.length
    | .err _ => 0).sum

/-- Termination measure for the traversal loop over a finite graph. -/
def crawlMeasure (seed : String) (docs : List (String × FetchResult))
    (st : CrawlState) : Nat :=
  st.to_process.length +
    (1 + totalChildren docs) *
      ((crawlUniverse seed docs).countP
        fun u => !decide (u ∈ st.processed_sitemaps))

/-- Fixture: a sitemap index `i` with children `a`, `b`; `a` and `b` both
carry the leaf URL `u`. -/
def exDocs5 : List (String × FetchResult) :=
  [("i", .ok ⟨[], ["a", "b"]⟩),
   ("a", .ok ⟨["u", "x"], []⟩),
   ("b", .ok ⟨["u", "y"], []⟩)]

/-- Fixture network for the dedup scenario. -/
def exNet5 : String → FetchResult := netOf exDocs5

/-- Fixture: one sitemap `s` with three leaf URLs. -/
def exNet1 : String → FetchResult :=
  netOf [("s", .ok ⟨["u1", "u2", "u3"], []⟩)]

/-- Fixture: a two-node sitemap cycle (`s` lists itself and `t`; `t` lists
`s`). -/
def exDocsCyc : List (String × FetchResult) :=
  [("s", .ok ⟨["u1"], ["t", "s"]⟩), ("t", .ok ⟨["u2"], ["s"]⟩)]

/-- Fixture: a mid-traversal state that has already reached a cap of 2,
with sitemap `b` still waiting in the frontier. -/
def exCapState : CrawlState :=
  { all_urls := [⟨"u1", "s"⟩, ⟨"u2", "s"⟩], seen_urls := ["u2", "u1"],
    to_process := ["b"], processed_sitemaps := ["s"], errors := [],
    fetch_log := ["s"], iter := 1 }

/-- Fixture: a 301 response whose `Location` is `http://x` and whose body
(never read for redirects) declares both a noindex and a canonical. -/
def exResp301 : HttpResponse :=
  { status_code := 301
    headers := [("Location", "http://x")]
    body := .ok { meta_robots := some "noindex"
                  canonical_href := some (some "http://x/") } }

/-- Fixture: a 200 response that sets `X-Robots-Tag: noindex` and then
fails with a timeout while the body is being streamed. -/
def exRespBodyFail : HttpResponse :=
  { status_code := 200
    headers := [("X-Robots-Tag", "noindex")]
    body := .failure .timeout }

/-- Fixture: a 200 response whose page declares `link rel="canonical"`
with an empty `href`. -/
def exRespEmptyCanon : HttpResponse :=
  { status_code := 200, body := .ok { canonical_href := some (some "") } }

/-- Fixture: a 200 response declaring canonical `http://example.com`. -/
def exRespCanonExact : HttpResponse :=
  { status_code := 200
    body := .ok { canonical_href := some (some "http://example.com") } }

/-- Fixture: a 200 response declaring canonical `http://example.com/`
(trailing slash). -/
def exRespCanonSlash : HttpResponse :=
  { status_code := 200
    body := .ok { canonical_href := some (some "http://example.com/") } }

/-- Fixture: `gzip.decompress` behaviour on a body that is just the two
magic bytes: CPython raises `EOFError` ("Compressed file ended before the
end-of-stream marker was reached"), which is not an `OSError`. -/
def exEofDecompress : Bytes → GzipOutcome :=
  fun _ => .otherError
    "Compressed file ended before the end-of-stream marker was reached"

/-- Fixture: `gzip.decompress` behaviour on data whose gzip header is
malformed: CPython raises `gzip.BadGzipFile`, an `OSError`. -/
def exBadGzipDecompress : Bytes → GzipOutcome := fun _ => .osError

/-- Fixture: two probe results in completion order. -/
def exCompletions : List SeoProbeResult :=
  [{ sitemap_url := "a" }, { sitemap_url := "b" }]

/-! # Theorems -/

/-! ## Field-preservation lemmas for the probe steps -/

lemma stepXRobots_canonical (x : String) (r : SeoProbeResult) :
    (stepXRobots x r).canonical = r.canonical := by
  unfold stepXRobots; split <;> rfl

lemma stepXRobots_canonical_match (x : String) (r : SeoProbeResult) :
    (stepXRobots x r).canonical_match = r.canonical_match := by
  unfold stepXRobots; split <;> rfl

lemma stepXRobots_redirect (x : String) (r : SeoProbeResult) :
    (stepXRobots x r).redirect_location = r.redirect_location := by
  unfold stepXRobots; split <;> rfl

lemma stepXRobots_fetch_error (x : String) (r : SeoProbeResult) :
    (stepXRobots x r).fetch_error = r.fetch_error := by
  unfold stepXRobots; split <;> rfl

lemma stepXRobots_source (x : String) (r : SeoProbeResult) :
    (stepXRobots x r).noindex_source = r.noindex_source ∨
      (stepXRobots x r).noindex_source = some "Header" := by
  unfold stepXRobots; split <;> simp

lemma stepXRobots_noindex_source (x : String) (r : SeoProbeResult)
    (hn : r.noindex = false) (hs : r.noindex_source = none) :
    (stepXRobots x r).noindex = true →
      (stepXRobots x r).noindex_source = some "Header" := by
  unfold stepXRobots; split <;> simp [hn, hs]

lemma stepMetaRobots_canonical (doc : HtmlDoc) (r : SeoProbeResult) :
    (stepMetaRobots doc r).canonical = r.canonical := by
  unfold stepMetaRobots; split
  · rfl
  · split <;> rfl

lemma stepMetaRobots_canonical_match (doc : HtmlDoc) (r : SeoProbeResult) :
    (stepMetaRobots doc r).canonical_match = r.canonical_match := by
  unfold stepMetaRobots; split
  · rfl
  · split <;> rfl

lemma stepMetaRobots_fetch_error (doc : HtmlDoc) (r : SeoProbeResult) :
    (stepMetaRobots doc r).fetch_error = r.fetch_error := by
  unfold stepMetaRobots; split
  · rfl
  · split <;> rfl

lemma stepCanonical_canonical_match (doc : HtmlDoc) (r : SeoProbeResult) :
    (stepCanonical doc r).canonical_match = r.canonical_match := by
  unfold stepCanonical; split <;> rfl

lemma stepCanonical_fetch_error (doc : HtmlDoc) (r : SeoProbeResult) :
    (stepCanonical doc r).fetch_error = r.fetch_error := by
  unfold stepCanonical; split <;> rfl

lemma stepMatch_canonical (url : String) (r : SeoProbeResult) :
    (stepMatch url r).canonical = r.canonical := by
  unfold stepMatch; split <;> rfl

lemma stepMatch_fetch_error (url : String) (r : SeoProbeResult) :
    (stepMatch url r).fetch_error = r.fetch_error := by
  unfold stepMatch; split <;> rfl

lemma stepMatch_match_iff (url : String) (r : SeoProbeResult)
    (hm : r.canonical_match = false) :
    (stepMatch url r).canonical_match = true ↔
      ∃ s, r.canonical = some s ∧ s ≠ "" ∧ s = url := by
  unfold stepMatch
  cases hc : r.canonical with
  | none => simp [pyTruthy, hc, hm]
  | some s =>
    by_cases hs : s = ""
    · subst hs; simp [pyTruthy, hc, hm]
    · simp [pyTruthy, hc, hs, beq_iff_eq]

/-! ## Probe-level claims -/

/-- C3: for a response whose status is one of 301, 302, 303, 307, 308,
`fetch_url` records `redirect_location` from the `Location` header and
returns immediately: `canonical` stays absent, `canonical_match` and
`noindex` stay false, `noindex_source` stays absent, and no field depends
on the response body. -/
theorem C3_redirect_short_circuit (url : String) (r : HttpResponse)
    (h : r.status_code ∈ redirectCodes) :
    fetch_url (.response r) url =
      { sitemap_url := url
        final_status := some r.status_code
        redirect_location := r.headers.lookup "Location" } := by
  simp [fetch_url, h]

/-- Witness for C3 at the concrete 301 fixture, whose body even declares a
noindex and a canonical: the result still holds only the redirect data. -/
theorem C3_redirect_short_circuit_witness :
    fetch_url (.response exResp301) "http://e" =
      { sitemap_url := "http://e"
        final_status := some 301
        redirect_location := some "http://x" } := by
  rw [C3_redirect_short_circuit "http://e" exResp301 (by decide)]
  rfl

/-- C2 counterexample: a 200 response carrying `X-Robots-Tag: noindex`
whose body streaming then times out yields a populated `fetch_error`
together with `noindex = true` — a non-default field besides
`final_status`, contradicting the claim as stated. -/
theorem C2_counterexample :
    (fetch_url (.response exRespBodyFail) "http://e").fetch_error =
        some "Timeout" ∧
    (fetch_url (.response exRespBodyFail) "http://e").noindex = true := by
  exact ⟨rfl, rfl⟩

/-- C2 as amended: a populated `fetch_error` leaves `redirect_location`,
`canonical`, `canonical_match` at their defaults; `final_status` may hold
the status obtained before the failure; and additionally `noindex` /
`noindex_source` may retain a value already set from the `X-Robots-Tag`
header (source `"Header"`) when the failure happened while streaming the
body. -/
theorem C2_fetch_error_defaults (net : GetOutcome) (url m : String)
    (h : (fetch_url net url).fetch_error = some m) :
    (fetch_url net url).redirect_location = none ∧
    (fetch_url net url).canonical = none ∧
    (fetch_url net url).canonical_match = false ∧
    ((fetch_url net url).noindex_source = none ∨
      (fetch_url net url).noindex_source = some "Header") ∧
    ((fetch_url net url).noindex = true →
      (fetch_url net url).noindex_source = some "Header") := by
  cases net with
  | failure e => simp [fetch_url]
  | response r =>
    by_cases hred : r.status_code ∈ redirectCodes
    · simp [fetch_url, hred] at h
    · by_cases hbin :
        isBinaryContentType (strToLower (headerGetD r.headers "Content-Type" ""))
      · exfalso
        simp only [fetch_url, if_neg hred, if_pos hbin] at h
        rw [stepXRobots_fetch_error] at h
        simp at h
      · cases hb : r.body with
        | failure e =>
          simp only [fetch_url, if_neg hred, if_pos hbin, if_neg hbin, hb]
          refine ⟨by rw [stepXRobots_redirect], by rw [stepXRobots_canonical],
            by rw [stepXRobots_canonical_match],
            stepXRobots_source _ _, ?_⟩
          exact stepXRobots_noindex_source _ _ rfl rfl
        | ok doc =>
          exfalso
          simp only [fetch_url, if_neg hred, if_pos hbin, if_neg hbin, hb] at h
          rw [stepMatch_fetch_error, stepCanonical_fetch_error,
            stepMetaRobots_fetch_error, stepXRobots_fetch_error] at h
          simp at h

/-- Witness for C2 as amended, at the body-failure fixture. -/
theorem C2_fetch_error_defaults_witness :
    (fetch_url (.response exRespBodyFail) "http://e").redirect_location
        = none ∧
    (fetch_url (.response exRespBodyFail) "http://e").canonical = none ∧
    (fetch_url (.response exRespBodyFail) "http://e").canonical_match
        = false ∧
    ((fetch_url (.response exRespBodyFail) "http://e").noindex_source = none ∨
      (fetch_url (.response exRespBodyFail) "http://e").noindex_source
        = some "Header") ∧
    ((fetch_url (.response exRespBodyFail) "http://e").noindex = true →
      (fetch_url (.response exRespBodyFail) "http://e").noindex_source
        = some "Header") :=
  C2_fetch_error_defaults (.response exRespBodyFail) "http://e" "Timeout" rfl

/-- C4 counterexample: probing the URL `""` against a page declaring
`link rel="canonical" href=""` stores `canonical = some ""` — present and
byte-for-byte identical to the probed URL — yet `canonical_match` stays
false, because the source guards step 7 with Python truthiness and the
empty string is falsy.  The claim's "iff" therefore fails as stated. -/
theorem C4_counterexample :
    (fetch_url (.response exRespEmptyCanon) "").canonical = some "" ∧
    "" = "" ∧
    (fetch_url (.response exRespEmptyCanon) "").canonical_match = false := by
  exact ⟨rfl, rfl, rfl⟩

/-- C4 as amended: `canonical_match` is true iff `canonical` holds a
*non-empty* string byte-for-byte identical to the probed URL; no
normalization is applied in either direction.  (Only an empty canonical —
which can match only an empty probed URL — is excluded relative to the
original claim.) -/
theorem C4_canonical_match_iff (net : GetOutcome) (url : String) :
    (fetch_url net url).canonical_match = true ↔
      ∃ s, (fetch_url net url).canonical = some s ∧ s ≠ "" ∧ s = url := by
  cases net with
  | failure e => simp [fetch_url]
  | response r =>
    by_cases hred : r.status_code ∈ redirectCodes
    · simp [fetch_url, hred]
    · by_cases hbin :
        isBinaryContentType (strToLower (headerGetD r.headers "Content-Type" ""))
      · simp only [fetch_url, if_neg hred, if_pos hbin]
        rw [stepXRobots_canonical_match, stepXRobots_canonical]
        simp
      · cases hb : r.body with
        | failure e =>
          simp only [fetch_url, if_neg hred, if_pos hbin, if_neg hbin, hb]
          rw [stepXRobots_canonical_match, stepXRobots_canonical]
          simp
        | ok doc =>
          simp only [fetch_url, if_neg hred, if_pos hbin, if_neg hbin, hb]
          rw [stepMatch_canonical]
          exact stepMatch_match_iff url _ (by
            rw [stepCanonical_canonical_match, stepMetaRobots_canonical_match,
              stepXRobots_canonical_match])

/-- Witness for C4 as amended: the spec's own two test vectors — canonical
`http://example.com/` against URL `http://example.com` does not match,
the exact string does. -/
theorem C4_canonical_match_iff_witness :
    (fetch_url (.response exRespCanonSlash) "http://example.com"
        ).canonical_match = false ∧
    (fetch_url (.response exRespCanonExact) "http://example.com"
        ).canonical_match = true := by
  constructor
  · have h := C4_canonical_match_iff (.response exRespCanonSlash)
      "http://example.com"
    by_cases hm : (fetch_url (.response exRespCanonSlash)
        "http://example.com").canonical_match = true
    · rcases h.mp hm with ⟨s, hs, _, rfl⟩
      exact absurd hs (by decide)
    · simpa using hm
  · exact (C4_canonical_match_iff (.response exRespCanonExact)
      "http://example.com").mpr ⟨"http://example.com", rfl, by decide, rfl⟩

/-- C7 (code bug): a body that begins with the gzip magic bytes but is
truncated makes `gzip.decompress` raise `EOFError`, which is *not* an
`OSError`; the inner `except OSError` misses it, the outer handler turns
it into a fetch error, and the raw bytes are lost — against the stated
(and commented) fallback intent.  By contrast a `BadGzipFile`
(an `OSError`, second conjunct) does fall back to the raw bytes with a
nil error. -/
theorem C7_gzip_fallback_divergence :
    fetch_sitemap_content exEofDecompress (.ok [0x1f, 0x8b])
        "http://host/sitemap.xml" =
      (none, some ("Error fetching http://host/sitemap.xml: " ++
        "Compressed file ended before the end-of-stream marker was reached"))
      ∧
    fetch_sitemap_content exBadGzipDecompress (.ok [0x1f, 0x8b])
        "http://host/sitemap.xml" =
      (some [0x1f, 0x8b], none) := by
  exact ⟨rfl, rfl⟩

/-- No `except` clause of `fetch_url` ever stores an empty message. -/
lemma probeExcMsg_ne_empty (e : ProbeExc) : probeExcMsg e ≠ "" := by
  cases e with
  | timeout => decide
  | requests msg =>
    intro h
    have h2 := congrArg String.length h
    simp only [probeExcMsg, String.length_append] at h2
    have e1 : "RequestError: ".length = 14 := rfl
    have e2 : "".length = 0 := rfl
    omega
  | other msg =>
    intro h
    have h2 := congrArg String.length h
    simp only [probeExcMsg, String.length_append] at h2
    have e1 : "Error: ".length = 7 := rfl
    have e2 : "".length = 0 := rfl
    omega

/-- `fetch_url` never returns `some ""` as its `fetch_error`, so Python's
truthiness test in `bounded_fetch` agrees with "is populated". -/
lemma fetch_url_fetch_error_ne_empty (net : GetOutcome) (url : String) :
    (fetch_url net url).fetch_error ≠ some "" := by
  cases net with
  | failure e => simpa [fetch_url] using probeExcMsg_ne_empty e
  | response r =>
    by_cases hred : r.status_code ∈ redirectCodes
    · simp [fetch_url, hred]
    · by_cases hbin :
        isBinaryContentType (strToLower (headerGetD r.headers "Content-Type" ""))
      · simp only [fetch_url, if_neg hred, if_pos hbin]
        rw [stepXRobots_fetch_error]
        simp
      · cases hb : r.body with
        | failure e =>
          simp only [fetch_url, if_neg hred, if_pos hbin, if_neg hbin, hb]
          simpa using probeExcMsg_ne_empty e
        | ok doc =>
          simp only [fetch_url, if_neg hred, if_pos hbin, if_neg hbin, hb]
          rw [stepMatch_fetch_error, stepCanonical_fetch_error,
            stepMetaRobots_fetch_error, stepXRobots_fetch_error]
          simp

/-- C8: `bounded_fetch` calls the prober at most twice; a first attempt
with no populated `fetch_error` is returned after one call, otherwise
exactly one retry happens and its outcome — success or failure — is the
final result. -/
theorem C8_retry_policy (net1 net2 : GetOutcome) (url : String) :
    (bounded_fetch net1 net2 url).2 ≤ 2 ∧
    ((fetch_url net1 url).fetch_error = none →
      bounded_fetch net1 net2 url = (fetch_url net1 url, 1)) ∧
    ((fetch_url net1 url).fetch_error ≠ none →
      bounded_fetch net1 net2 url = (fetch_url net2 url, 2)) := by
  refine ⟨?_, ?_, ?_⟩
  · by_cases hk : pyTruthy (fetch_url net1 url).fetch_error
    · simp [bounded_fetch, hk]
    · simp [bounded_fetch, hk]
  · intro h
    unfold bounded_fetch
    simp [pyTruthy, h]
  · intro h
    cases hc : (fetch_url net1 url).fetch_error with
    | none => exact absurd hc h
    | some s =>
      have hs : ¬ (s == "") = true := by
        intro hb
        exact fetch_url_fetch_error_ne_empty net1 url
          (by rw [hc, show s = "" from by simpa using hb])
      unfold bounded_fetch
      simp [pyTruthy, hc, hs]

/-- Witness for C8: a first attempt that times out on `session.get`
followed by a successful second attempt returns the second result after
exactly two calls; a clean first attempt returns after one call. -/
theorem C8_retry_policy_witness :
    bounded_fetch (.failure .timeout) (.response exRespCanonExact)
        "http://example.com" =
      (fetch_url (.response exRespCanonExact) "http://example.com", 2) ∧
    bounded_fetch (.response exRespCanonExact) (.failure .timeout)
        "http://example.com" =
      (fetch_url (.response exRespCanonExact) "http://example.com", 1) := by
  constructor
  · exact (C8_retry_policy (.failure .timeout) (.response exRespCanonExact)
      "http://example.com").2.2 (by intro h; exact Option.noConfusion h)
  · exact (C8_retry_policy (.response exRespCanonExact) (.failure .timeout)
      "http://example.com").2.1 rfl

/-! ## Traversal-level claims -/

/-- Once `len(all_urls) >= max_urls`, the loop condition fails at the top:
the loop body never runs again, so the state — in particular the fetch
log — is unchanged, for any remaining fuel. -/
lemma crawlLoop_at_cap (net : String → FetchResult) (max_urls : Int)
    (stop : Option (Nat → Bool)) (fuel : Nat) (st : CrawlState)
    (h : (st.all_urls.length : Int) ≥ max_urls) :
    (crawlLoop net max_urls stop fuel st).1 = st := by
  cases fuel with
  | zero => rfl
  | succ n =>
    unfold crawlLoop
    cases hq : st.to_process with
    | nil => rfl
    | cons current rest => simp [h]

/-- C10: with a non-positive `max_urls` the loop condition
`len(all_urls) < max_urls` is false from the start: the traversal returns
empty `all_urls`, `processed_sitemaps` and `errors`, and not even the
seed sitemap is fetched. -/
theorem C10_nonpositive_cap (net : String → FetchResult) (url : String)
    (max_urls : Int) (stop : Option (Nat → Bool)) (fuel : Nat)
    (h : max_urls ≤ 0) :
    (extract_urls_recursive net url max_urls stop fuel).1.all_urls = [] ∧
    (extract_urls_recursive net url max_urls stop fuel).1.processed_sitemaps
      = [] ∧
    (extract_urls_recursive net url max_urls stop fuel).1.errors = [] ∧
    (extract_urls_recursive net url max_urls stop fuel).1.fetch_log = [] := by
  have hcap : (((initState url).all_urls.length : Int)) ≥ max_urls := by
    simp [initState]
    omega
  unfold extract_urls_recursive
  rw [crawlLoop_at_cap net max_urls stop fuel (initState url) hcap]
  exact ⟨rfl, rfl, rfl, rfl⟩

/-- Witness for C10 at cap 0: the seed's document is reachable, yet
nothing is fetched. -/
theorem C10_nonpositive_cap_witness :
    (extract_urls_recursive exNet1 "s" 0 none 10).1.all_urls = [] ∧
    (extract_urls_recursive exNet1 "s" 0 none 10).1.processed_sitemaps
      = [] ∧
    (extract_urls_recursive exNet1 "s" 0 none 10).1.errors = [] ∧
    (extract_urls_recursive exNet1 "s" 0 none 10).1.fetch_log = [] :=
  C10_nonpositive_cap exNet1 "s" 0 none 10 (by decide)


/-- The inner URL loop only appends: existing records are never modified,
every appended record carries the current sitemap as its provenance, and
every appended URL was unseen when the document was processed. -/
lemma addUrls_append (max_urls : Int) (src : String) (urls : List String)
    (all : List LeafUrlRecord) (seen : List String) :
    ∃ t, (addUrls max_urls src urls all seen).1 = all ++ t ∧
      ∀ r ∈ t, r.source_sitemap = src ∧ r.sitemap_url ∉ seen := by
  induction urls generalizing all seen with
  | nil => exact ⟨[], by simp [addUrls], by simp⟩
  | cons u rest ih =>
    by_cases hu : u ∈ seen
    · obtain ⟨t, ht, hp⟩ := ih all seen
      exact ⟨t, by simpa [addUrls, hu] using ht, hp⟩
    · by_cases hc : max_urls ≤ (all.length : Int) + 1
      · refine ⟨[(⟨u, src⟩ : LeafUrlRecord)], by simp [addUrls, hu, hc], ?_⟩
        intro r hr
        rw [List.mem_singleton] at hr
        subst hr
        exact ⟨rfl, hu⟩
      · obtain ⟨t, ht, hp⟩ := ih (all ++ [(⟨u, src⟩ : LeafUrlRecord)])
          (u :: seen)
        refine ⟨(⟨u, src⟩ : LeafUrlRecord) :: t, ?_, ?_⟩
        · have hstep : addUrls max_urls src (u :: rest) all seen =
              addUrls max_urls src rest
                (all ++ [(⟨u, src⟩ : LeafUrlRecord)]) (u :: seen) := by
            simp [addUrls, hu, hc]
          rw [hstep, ht]
          simp
        · intro r hr
          rcases List.mem_cons.mp hr with h1 | h1
          · subst h1; exact ⟨rfl, hu⟩
          · obtain ⟨hs, hn⟩ := hp r h1
            exact ⟨hs, fun hmem => hn (List.mem_cons_of_mem _ hmem)⟩

/-- The inner URL loop preserves the two data-structure invariants of the
traversal: `seen_urls` holds exactly the URLs of `all_urls`, and
`all_urls` has pairwise-distinct URLs. -/
lemma addUrls_inv (max_urls : Int) (src : String) (urls : List String)
    (all : List LeafUrlRecord) (seen : List String)
    (hinv : ∀ v, v ∈ seen ↔ v ∈ all.map LeafUrlRecord.sitemap_url)
    (hnd : (all.map LeafUrlRecord.sitemap_url).Nodup) :
    (∀ v, v ∈ (addUrls max_urls src urls all seen).2 ↔
      v ∈ (addUrls max_urls src urls all seen).1.map
        LeafUrlRecord.sitemap_url) ∧
    ((addUrls max_urls src urls all seen).1.map
      LeafUrlRecord.sitemap_url).Nodup := by
  induction urls generalizing all seen with
  | nil => exact ⟨by simpa [addUrls] using hinv, by simpa [addUrls] using hnd⟩
  | cons u rest ih =>
    by_cases hu : u ∈ seen
    · simpa [addUrls, hu] using ih all seen hinv hnd
    · have hnotin : u ∉ all.map LeafUrlRecord.sitemap_url :=
        fun hmem => hu ((hinv u).mpr hmem)
      have hinv2 : ∀ v, v ∈ u :: seen ↔
          v ∈ (all ++ [(⟨u, src⟩ : LeafUrlRecord)]).map
            LeafUrlRecord.sitemap_url := by
        intro v
        simp only [List.mem_cons, List.map_append, List.mem_append,
          List.map_cons, List.map_nil, List.mem_singleton, hinv v]
        tauto
      have hnd2 : ((all ++ [(⟨u, src⟩ : LeafUrlRecord)]).map
          LeafUrlRecord.sitemap_url).Nodup := by
        simp [List.nodup_append, hnd, hnotin]
      by_cases hc : max_urls ≤ (all.length : Int) + 1
      · have hstep : addUrls max_urls src (u :: rest) all seen =
            (all ++ [(⟨u, src⟩ : LeafUrlRecord)], u :: seen) := by
          simp [addUrls, hu, hc]
        rw [hstep]
        exact ⟨hinv2, hnd2⟩
      · have hstep : addUrls max_urls src (u :: rest) all seen =
            addUrls max_urls src rest
              (all ++ [(⟨u, src⟩ : LeafUrlRecord)]) (u :: seen) := by
          simp [addUrls, hu, hc]
        rw [hstep]
        exact ih (all ++ [(⟨u, src⟩ : LeafUrlRecord)]) (u :: seen) hinv2 hnd2

/-- If the cap is not yet reached, the inner URL loop never pushes
`all_urls` beyond the cap (the `break` fires as soon as it is hit). -/
lemma addUrls_length_le (max_urls : Int) (src : String) (urls : List String)
    (all : List LeafUrlRecord) (seen : List String)
    (h : (all.length : Int) < max_urls) :
    ((addUrls max_urls src urls all seen).1.length : Int) ≤ max_urls := by
  induction urls generalizing all seen with
  | nil =>
    have hstep : addUrls max_urls src [] all seen = (all, seen) := by
      simp [addUrls]
    rw [hstep]
    dsimp only
    omega
  | cons u rest ih =>
    by_cases hu : u ∈ seen
    · simpa [addUrls, hu] using ih all seen h
    · by_cases hc : max_urls ≤ (all.length : Int) + 1
      · have hstep : addUrls max_urls src (u :: rest) all seen =
            (all ++ [(⟨u, src⟩ : LeafUrlRecord)], u :: seen) := by
          simp [addUrls, hu, hc]
        rw [hstep]
        dsimp only
        have hlen : ((all ++ [(⟨u, src⟩ : LeafUrlRecord)]).length : Int) =
            (all.length : Int) + 1 := by simp
        omega
      · have hstep : addUrls max_urls src (u :: rest) all seen =
            addUrls max_urls src rest
              (all ++ [(⟨u, src⟩ : LeafUrlRecord)]) (u :: seen) := by
          simp [addUrls, hu, hc]
        rw [hstep]
        refine ih (all ++ [(⟨u, src⟩ : LeafUrlRecord)]) (u :: seen) ?_
        have hlen : ((all ++ [(⟨u, src⟩ : LeafUrlRecord)]).length : Int) =
            (all.length : Int) + 1 := by simp
        omega

/-- If the current document supplies at least as many fresh leaf URLs as
the remaining capacity, the inner loop fills `all_urls` to exactly the
cap and discards the rest of the document. -/
lemma addUrls_length_exact (max_urls : Int) (src : String)
    (urls : List String) (all : List LeafUrlRecord) (seen : List String)
    (h1 : (all.length : Int) < max_urls)
    (h2 : max_urls ≤ (all.length : Int) + freshCount seen urls) :
    ((addUrls max_urls src urls all seen).1.length : Int) = max_urls := by
  induction urls generalizing all seen with
  | nil =>
    have hstep : addUrls max_urls src [] all seen = (all, seen) := by
      simp [addUrls]
    rw [hstep]
    dsimp only
    simp [freshCount] at h2
    omega
  | cons u rest ih =>
    by_cases hu : u ∈ seen
    · have hf : freshCount seen (u :: rest) = freshCount seen rest := by
        simp [freshCount, hu]
      rw [hf] at h2
      simpa [addUrls, hu] using ih all seen h1 h2
    · have hf : freshCount seen (u :: rest) =
          freshCount (u :: seen) rest + 1 := by
        simp [freshCount, hu]
      rw [hf] at h2
      by_cases hc : max_urls ≤ (all.length : Int) + 1
      · have hstep : addUrls max_urls src (u :: rest) all seen =
            (all ++ [(⟨u, src⟩ : LeafUrlRecord)], u :: seen) := by
          simp [addUrls, hu, hc]
        rw [hstep]
        dsimp only
        have hlen : ((all ++ [(⟨u, src⟩ : LeafUrlRecord)]).length : Int) =
            (all.length : Int) + 1 := by simp
        omega
      · have hstep : addUrls max_urls src (u :: rest) all seen =
            addUrls max_urls src rest
              (all ++ [(⟨u, src⟩ : LeafUrlRecord)]) (u :: seen) := by
          simp [addUrls, hu, hc]
        rw [hstep]
        have hlen : ((all ++ [(⟨u, src⟩ : LeafUrlRecord)]).length : Int) =
            (all.length : Int) + 1 := by simp
        refine ih (all ++ [(⟨u, src⟩ : LeafUrlRecord)]) (u :: seen)
          (by omega) ?_
        rw [hlen]
        push_cast at h2
        omega

/-- Main loop invariants, established in one induction over the fuel:
(1) the four output lists only ever grow by appending (records are
immutable once created); (2) `seen_urls` tracks exactly the URLs of
`all_urls`, `all_urls` has pairwise-distinct URLs, `processed_sitemaps`
has no duplicates, and the fetch log coincides with
`processed_sitemaps`; (3) `len(all_urls) <= max_urls` is preserved. -/
lemma crawlLoop_main (net : String → FetchResult) (max_urls : Int)
    (stop : Option (Nat → Bool)) :
    ∀ (fuel : Nat) (st : CrawlState),
      (∃ t1 t2 t3 t4,
        (crawlLoop net max_urls stop fuel st).1.all_urls =
          st.all_urls ++ t1 ∧
        (crawlLoop net max_urls stop fuel st).1.processed_sitemaps =
          st.processed_sitemaps ++ t2 ∧
        (crawlLoop net max_urls stop fuel st).1.fetch_log =
          st.fetch_log ++ t3 ∧
        (crawlLoop net max_urls stop fuel st).1.errors =
          st.errors ++ t4) ∧
      (((∀ v, v ∈ st.seen_urls ↔
            v ∈ st.all_urls.map LeafUrlRecord.sitemap_url) ∧
        (st.all_urls.map LeafUrlRecord.sitemap_url).Nodup ∧
        st.processed_sitemaps.Nodup ∧
        st.fetch_log = st.processed_sitemaps) →
        ((∀ v, v ∈ (crawlLoop net max_urls stop fuel st).1.seen_urls ↔
            v ∈ (crawlLoop net max_urls stop fuel st).1.all_urls.map
              LeafUrlRecord.sitemap_url) ∧
         ((crawlLoop net max_urls stop fuel st).1.all_urls.map
            LeafUrlRecord.sitemap_url).Nodup ∧
         (crawlLoop net max_urls stop fuel st).1.processed_sitemaps.Nodup ∧
         (crawlLoop net max_urls stop fuel st).1.fetch_log =
           (crawlLoop net max_urls stop fuel st).1.processed_sitemaps)) ∧
      ((st.all_urls.length : Int) ≤ max_urls →
        ((crawlLoop net max_urls stop fuel st).1.all_urls.length : Int)
          ≤ max_urls) := by
  intro fuel
  induction fuel with
  | zero =>
    intro st
    have hid : (crawlLoop net max_urls stop 0 st).1 = st := rfl
    rw [hid]
    exact ⟨⟨[], [], [], [], by simp⟩, fun h => h, fun h => h⟩
  | succ n ih =>
    intro st
    cases hq : st.to_process with
    | nil =>
      have hid : (crawlLoop net max_urls stop (n+1) st).1 = st := by
        simp [crawlLoop, hq]
      rw [hid]
      exact ⟨⟨[], [], [], [], by simp⟩, fun h => h, fun h => h⟩
    | cons current rest =>
      by_cases hcap : max_urls ≤ (st.all_urls.length : Int)
      · have hid : (crawlLoop net max_urls stop (n+1) st).1 = st := by
          simp [crawlLoop, hq, hcap]
        rw [hid]
        exact ⟨⟨[], [], [], [], by simp⟩, fun h => h, fun h => h⟩
      · by_cases hstop : stopNow stop st.iter = true
        · have hid : (crawlLoop net max_urls stop (n+1) st).1 = st := by
            simp [crawlLoop, hq, hcap, hstop]
          rw [hid]
          exact ⟨⟨[], [], [], [], by simp⟩, fun h => h, fun h => h⟩
        · by_cases hproc : current ∈ st.processed_sitemaps
          · have hstep : crawlLoop net max_urls stop (n+1) st =
                crawlLoop net max_urls stop n
                  { st with to_process := rest, iter := st.iter + 1 } := by
              simp [crawlLoop, hq, hcap, hstop, hproc]
            rw [hstep]
            exact ih { st with to_process := rest, iter := st.iter + 1 }
          · cases hnet : net current with
            | err msg =>
              have hstep : crawlLoop net max_urls stop (n+1) st =
                  crawlLoop net max_urls stop n
                    { st with
                      to_process := rest
                      iter := st.iter + 1
                      processed_sitemaps :=
                        st.processed_sitemaps ++ [current]
                      fetch_log := st.fetch_log ++ [current]
                      errors := st.errors ++ [msg] } := by
                simp [crawlLoop, hq, hcap, hstop, hproc, hnet]
              rw [hstep]
              obtain ⟨⟨t1, t2, t3, t4, h1, h2, h3, h4⟩, hinv2, hcap2⟩ :=
                ih { st with
                  to_process := rest
                  iter := st.iter + 1
                  processed_sitemaps := st.processed_sitemaps ++ [current]
                  fetch_log := st.fetch_log ++ [current]
                  errors := st.errors ++ [msg] }
              refine ⟨⟨t1, [current] ++ t2, [current] ++ t3, [msg] ++ t4,
                by rw [h1], by rw [h2]; simp, by rw [h3]; simp,
                by rw [h4]; simp⟩, ?_, hcap2⟩
              rintro ⟨hseen, hndu, hndp, hlog⟩
              refine hinv2 ⟨hseen, hndu, ?_, ?_⟩
              · simpa [List.nodup_append] using ⟨hndp, hproc⟩
              · show st.fetch_log ++ [current] =
                  st.processed_sitemaps ++ [current]
                rw [hlog]
            | ok doc =>
              obtain ⟨ta, hta, htaP⟩ := addUrls_append max_urls current
                doc.final_urls st.all_urls st.seen_urls
              have hstep : crawlLoop net max_urls stop (n+1) st =
                  crawlLoop net max_urls stop n
                    { all_urls := (addUrls max_urls current doc.final_urls
                        st.all_urls st.seen_urls).1
                      seen_urls := (addUrls max_urls current doc.final_urls
                        st.all_urls st.seen_urls).2
                      to_process := rest ++ doc.sitemap_index_urls.filter
                        (fun c =>
                          !decide (c ∈ st.processed_sitemaps ++ [current]))
                      processed_sitemaps :=
                        st.processed_sitemaps ++ [current]
                      errors := st.errors
                      fetch_log := st.fetch_log ++ [current]
                      iter := st.iter + 1 } := by
                simp [crawlLoop, hq, hcap, hstop, hproc, hnet]
              rw [hstep]
              obtain ⟨⟨t1, t2, t3, t4, h1, h2, h3, h4⟩, hinv2, hcap2⟩ :=
                ih
                  { all_urls := (addUrls max_urls current doc.final_urls
                      st.all_urls st.seen_urls).1
                    seen_urls := (addUrls max_urls current doc.final_urls
                      st.all_urls st.seen_urls).2
                    to_process := rest ++ doc.sitemap_index_urls.filter
                      (fun c =>
                        !decide (c ∈ st.processed_sitemaps ++ [current]))
                    processed_sitemaps := st.processed_sitemaps ++ [current]
                    errors := st.errors
                    fetch_log := st.fetch_log ++ [current]
                    iter := st.iter + 1 }
              refine ⟨⟨ta ++ t1, [current] ++ t2, [current] ++ t3, t4,
                by rw [h1]; show (addUrls max_urls current doc.final_urls
                    st.all_urls st.seen_urls).1 ++ t1 = _; rw [hta]; simp,
                by rw [h2]; simp, by rw [h3]; simp, by rw [h4]⟩, ?_, ?_⟩
              · rintro ⟨hseen, hndu, hndp, hlog⟩
                obtain ⟨hseen2, hndu2⟩ := addUrls_inv max_urls current
                  doc.final_urls st.all_urls st.seen_urls hseen hndu
                refine hinv2 ⟨hseen2, hndu2, ?_, ?_⟩
                · simpa [List.nodup_append] using ⟨hndp, hproc⟩
                · show st.fetch_log ++ [current] =
                    st.processed_sitemaps ++ [current]
                  rw [hlog]
              · intro hlen
                refine hcap2 ?_
                show ((addUrls max_urls current doc.final_urls
                  st.all_urls st.seen_urls).1.length : Int) ≤ max_urls
                exact addUrls_length_le max_urls current doc.final_urls
                  st.all_urls st.seen_urls (by omega)

/-- C1: for any seed, any cap `max_urls > 0` and any document assignment,
`all_urls` never exceeds the cap; a document supplying at least the
remaining capacity of fresh leaf URLs fills the list to exactly the cap
(the rest of that document is discarded); and from any state that has
reached the cap the loop exits at its top without fetching anything —
sitemaps still waiting in the frontier are never fetched. -/
theorem C1_cap_enforcement (net : String → FetchResult) (url : String)
    (max_urls : Int) (stop : Option (Nat → Bool)) (fuel : Nat)
    (hN : 0 < max_urls) :
    (((extract_urls_recursive net url max_urls stop fuel).1.all_urls.length :
        Int) ≤ max_urls) ∧
    (∀ (src : String) (urls : List String) (all : List LeafUrlRecord)
        (seen : List String),
      (all.length : Int) < max_urls →
      max_urls ≤ (all.length : Int) + freshCount seen urls →
      ((addUrls max_urls src urls all seen).1.length : Int) = max_urls) ∧
    (∀ st : CrawlState, (st.all_urls.length : Int) ≥ max_urls →
      (crawlLoop net max_urls stop fuel st).1 = st) := by
  refine ⟨?_, ?_, ?_⟩
  · have h0 : (((initState url).all_urls.length : Int)) = 0 := rfl
    exact (crawlLoop_main net max_urls stop fuel (initState url)).2.2
      (by omega)
  · intro src urls all seen h1 h2
    exact addUrls_length_exact max_urls src urls all seen h1 h2
  · intro st h
    exact crawlLoop_at_cap net max_urls stop fuel st h

/-- Witness for C1 at cap 2: a single document with three leaf URLs fills
`all_urls` to exactly 2, and from a state at the cap with sitemap `b`
still queued, nothing further happens. -/
theorem C1_cap_enforcement_witness :
    (((extract_urls_recursive exNet1 "s" 2 none 10).1.all_urls.length : Int)
      ≤ 2) ∧
    ((addUrls 2 "s" ["u1", "u2", "u3"] [] []).1.length : Int) = 2 ∧
    (crawlLoop exNet1 2 none 10 exCapState).1 = exCapState := by
  have h := C1_cap_enforcement exNet1 "s" 2 none 10 (by decide)
  exact ⟨h.1, h.2.1 "s" ["u1", "u2", "u3"] [] [] (by decide) (by decide),
    h.2.2 exCapState (by decide)⟩

/-- C5: the returned `all_urls` lists each distinct URL at most once; the
loop only appends to `all_urls` (a record is immutable once created, so
the first occurrence wins); every record produced while processing a
document carries that document's sitemap as `source_sitemap` and a URL
unseen at that moment; and on the spec's concrete dedup scenario — an
index whose two children both carry the leaf URL `u` — the result lists
`u` once, sourced from the first-processed child `a`. -/
theorem C5_dedup_first_wins (net : String → FetchResult) (url : String)
    (max_urls : Int) (stop : Option (Nat → Bool)) (fuel : Nat) :
    ((extract_urls_recursive net url max_urls stop fuel).1.all_urls.map
      LeafUrlRecord.sitemap_url).Nodup ∧
    (∀ st : CrawlState, ∃ t,
      (crawlLoop net max_urls stop fuel st).1.all_urls =
        st.all_urls ++ t) ∧
    (∀ (src : String) (urls : List String) (all : List LeafUrlRecord)
        (seen : List String), ∃ t,
      (addUrls max_urls src urls all seen).1 = all ++ t ∧
      ∀ r ∈ t, r.source_sitemap = src ∧ r.sitemap_url ∉ seen) ∧
    (extract_urls_recursive exNet5 "i" 100 none 10).1.all_urls =
      [⟨"u", "a"⟩, ⟨"x", "a"⟩, ⟨"y", "b"⟩] := by
  refine ⟨?_, ?_, ?_, ?_⟩
  · exact ((crawlLoop_main net max_urls stop fuel (initState url)).2.1
      ⟨by simp [initState], by simp [initState], by simp [initState],
        rfl⟩).2.1
  · intro st
    obtain ⟨t1, t2, t3, t4, h1, h2, h3, h4⟩ :=
      (crawlLoop_main net max_urls stop fuel st).1
    exact ⟨t1, h1⟩
  · intro src urls all seen
    exact addUrls_append max_urls src urls all seen
  · rfl

/-- Witness for C5: the general conjuncts instantiated at the dedup
fixture and at concrete loop inputs. -/
theorem C5_dedup_first_wins_witness :
    ((extract_urls_recursive exNet5 "i" 100 none 10).1.all_urls.map
      LeafUrlRecord.sitemap_url).Nodup ∧
    (∃ t, (crawlLoop exNet5 100 none 10 exCapState).1.all_urls =
      exCapState.all_urls ++ t) ∧
    (∃ t, (addUrls 100 "a" ["u", "x"] [] []).1 = [] ++ t ∧
      ∀ r ∈ t, r.source_sitemap = "a" ∧
        r.sitemap_url ∉ ([] : List String)) := by
  have h := C5_dedup_first_wins exNet5 "i" 100 none 10
  exact ⟨h.1, h.2.1 exCapState, h.2.2.1 "a" ["u", "x"] [] []⟩


/-- A successful association-list lookup exhibits a member. -/
lemma lookup_mem (docs : List (String × FetchResult)) (u : String)
    (r : FetchResult) (h : docs.lookup u = some r) : (u, r) ∈ docs := by
  induction docs with
  | nil => simp [List.lookup] at h
  | cons p rest ih =>
    obtain ⟨k, v⟩ := p
    cases hkk : (u == k) with
    | true =>
      simp only [List.lookup, hkk] at h
      have hku : u = k := by simpa using hkk
      subst hku
      rw [Option.some_inj] at h
      subst h
      exact List.mem_cons_self _ _
    | false =>
      simp only [List.lookup, hkk] at h
      exact List.mem_cons_of_mem _ (ih h)

/-- If the finite graph serves `current` as a parsed document, that pair
is in the association list. -/
lemma netOf_ok_mem (docs : List (String × FetchResult)) (current : String)
    (doc : SitemapDoc) (h : netOf docs current = .ok doc) :
    (current, FetchResult.ok doc) ∈ docs := by
  unfold netOf at h
  cases hl : docs.lookup current with
  | none => rw [hl] at h; exact absurd h (by simp)
  | some r =>
    rw [hl] at h
    subst h
    exact lookup_mem docs current _ hl

/-- A member document's child count is bounded by the graph total. -/
lemma children_le_totalChildren (docs : List (String × FetchResult))
    (u : String) (doc : SitemapDoc)
    (h : (u, FetchResult.ok doc) ∈ docs) :
    doc.sitemap_index_urls.length ≤ totalChildren docs := by
  induction docs with
  | nil => simp at h
  | cons p rest ih =>
    rcases List.mem_cons.mp h with h1 | h1
    · subst h1
      simp [totalChildren]
    · have := ih h1
      obtain ⟨k, v⟩ := p
      simp only [totalChildren, List.map_cons, List.sum_cons] at this ⊢
      omega

/-- Every child reference of a member document lies in the universe. -/
lemma child_mem_universe (seed : String)
    (docs : List (String × FetchResult)) (u : String) (doc : SitemapDoc)
    (hmem : (u, FetchResult.ok doc) ∈ docs) (c : String)
    (hc : c ∈ doc.sitemap_index_urls) :
    c ∈ crawlUniverse seed docs := by
  rw [crawlUniverse, List.mem_dedup]
  refine List.mem_cons_of_mem _ ?_
  rw [List.mem_flatten]
  refine ⟨doc.sitemap_index_urls, ?_, hc⟩
  have heq : (fun p : String × FetchResult =>
      match p.2 with
      | .ok d => d.sitemap_index_urls
      | .err _ => []) (u, FetchResult.ok doc) = doc.sitemap_index_urls := rfl
  exact heq ▸ List.mem_map_of_mem _ hmem

/-- The seed lies in the universe. -/
lemma seed_mem_universe (seed : String)
    (docs : List (String × FetchResult)) :
    seed ∈ crawlUniverse seed docs := by
  rw [crawlUniverse, List.mem_dedup]
  exact List.mem_cons_self _ _

/-- Growing the visited set cannot increase the unvisited count. -/
lemma countP_unproc_mono (U processed : List String) (current : String) :
    (U.countP fun u => !decide (u ∈ processed ++ [current])) ≤
      U.countP fun u => !decide (u ∈ processed) := by
  apply List.countP_mono_left
  intro x _ h
  simp only [List.mem_append, List.mem_singleton, Bool.not_eq_true',
    decide_eq_false_iff_not] at h ⊢
  exact fun hx => h (Or.inl hx)

/-- Visiting a fresh member of the universe strictly decreases the
unvisited count. -/
lemma countP_unproc_dec (U processed : List String) (current : String)
    (hU : U.Nodup) (hmem : current ∈ U) (hnp : current ∉ processed) :
    (U.countP fun u => !decide (u ∈ processed ++ [current])) + 1 ≤
      U.countP fun u => !decide (u ∈ processed) := by
  induction U with
  | nil => simp at hmem
  | cons a rest ih =>
    rw [List.nodup_cons] at hU
    rcases List.mem_cons.mp hmem with rfl | hmem2
    · have h1 : (!decide (current ∈ processed ++ [current])) = false := by
        simp
      have h2 : (!decide (current ∈ processed)) = true := by simp [hnp]
      rw [List.countP_cons, List.countP_cons, h1, h2]
      have hmono := countP_unproc_mono rest processed current
      simp only [Bool.false_eq_true, if_false, if_true]
      omega
    · have hne : a ≠ current := by
        intro he
        exact hU.1 (he ▸ hmem2)
      have heq : (!decide (a ∈ processed ++ [current])) =
          (!decide (a ∈ processed)) := by
        simp [List.mem_append, hne]
      rw [List.countP_cons, List.countP_cons, heq]
      have hrec := ih hU.2 hmem2
      by_cases ha : (!decide (a ∈ processed)) = true
      · rw [ha]
        simp only [if_true]
        omega
      · rw [Bool.not_eq_true] at ha
        rw [ha]
        simp only [Bool.false_eq_true, if_false]
        omega

/-- Termination of the traversal loop over any finite sitemap graph: with
fuel exceeding the measure, the loop exits by its own condition.  Each
iteration either pops a queue entry without fetching (measure drops by 1)
or visits a fresh universe member, shrinking the unvisited count; newly
queued children are bounded by the graph's total child count. -/
lemma crawlLoop_terminates (docs : List (String × FetchResult))
    (seed : String) (max_urls : Int) (stop : Option (Nat → Bool)) :
    ∀ (k : Nat) (st : CrawlState),
      (∀ u ∈ st.to_process, u ∈ crawlUniverse seed docs) →
      crawlMeasure seed docs st < k →
      (crawlLoop (netOf docs) max_urls stop k st).2 = true := by
  intro k
  induction k with
  | zero =>
    intro st _ hm
    exact absurd hm (Nat.not_lt_zero _)
  | succ n ih =>
    intro st hQ hm
    cases hq : st.to_process with
    | nil => simp [crawlLoop, hq]
    | cons current rest =>
      by_cases hcap : max_urls ≤ (st.all_urls.length : Int)
      · simp [crawlLoop, hq, hcap]
      · by_cases hstop : stopNow stop st.iter = true
        · simp [crawlLoop, hq, hcap, hstop]
        · have hcur : current ∈ crawlUniverse seed docs :=
            hQ current (by rw [hq]; exact List.mem_cons_self _ _)
          have hrestQ : ∀ u ∈ rest, u ∈ crawlUniverse seed docs :=
            fun u hu => hQ u (by rw [hq]; exact List.mem_cons_of_mem _ hu)
          have hqlen : st.to_process.length = rest.length + 1 := by
            rw [hq]
            rfl
          rw [crawlMeasure, hqlen] at hm
          by_cases hproc : current ∈ st.processed_sitemaps
          · have hstep : crawlLoop (netOf docs) max_urls stop (n+1) st =
                crawlLoop (netOf docs) max_urls stop n
                  { st with to_process := rest, iter := st.iter + 1 } := by
              simp [crawlLoop, hq, hcap, hstop, hproc]
            rw [hstep]
            refine ih _ hrestQ ?_
            rw [crawlMeasure]
            dsimp only
            omega
          · cases hnet : netOf docs current with
            | err msg =>
              have hmono := countP_unproc_mono (crawlUniverse seed docs)
                st.processed_sitemaps current
              have hmul := Nat.mul_le_mul_left (1 + totalChildren docs) hmono
              have hstep : crawlLoop (netOf docs) max_urls stop (n+1) st =
                  crawlLoop (netOf docs) max_urls stop n
                    { st with
                      to_process := rest
                      iter := st.iter + 1
                      processed_sitemaps :=
                        st.processed_sitemaps ++ [current]
                      fetch_log := st.fetch_log ++ [current]
                      errors := st.errors ++ [msg] } := by
                simp [crawlLoop, hq, hcap, hstop, hproc, hnet]
              rw [hstep]
              refine ih _ hrestQ ?_
              rw [crawlMeasure]
              dsimp only
              omega
            | ok doc =>
              have hmemdoc := netOf_ok_mem docs current doc hnet
              have hdec := countP_unproc_dec (crawlUniverse seed docs)
                st.processed_sitemaps current
                (by rw [crawlUniverse]; exact List.nodup_dedup _)
                hcur hproc
              have hmul := Nat.mul_le_mul_left (1 + totalChildren docs) hdec
              rw [Nat.mul_add, Nat.mul_one] at hmul
              have hchild : doc.sitemap_index_urls.length ≤
                  totalChildren docs :=
                children_le_totalChildren docs current doc hmemdoc
              have hflen : (doc.sitemap_index_urls.filter
                  (fun c =>
                    !decide (c ∈ st.processed_sitemaps ++ [current]))).length
                  ≤ totalChildren docs :=
                le_trans (List.length_filter_le _ _) hchild
              have hstep : crawlLoop (netOf docs) max_urls stop (n+1) st =
                  crawlLoop (netOf docs) max_urls stop n
                    { all_urls := (addUrls max_urls current doc.final_urls
                        st.all_urls st.seen_urls).1
                      seen_urls := (addUrls max_urls current doc.final_urls
                        st.all_urls st.seen_urls).2
                      to_process := rest ++ doc.sitemap_index_urls.filter
                        (fun c =>
                          !decide (c ∈ st.processed_sitemaps ++ [current]))
                      processed_sitemaps :=
                        st.processed_sitemaps ++ [current]
                      errors := st.errors
                      fetch_log := st.fetch_log ++ [current]
                      iter := st.iter + 1 } := by
                simp [crawlLoop, hq, hcap, hstop, hproc, hnet]
              rw [hstep]
              refine ih _ ?_ ?_
              · intro u hu
                rcases List.mem_append.mp hu with h1 | h1
                · exact hrestQ u h1
                · exact child_mem_universe seed docs current doc hmemdoc u
                    (List.mem_of_mem_filter h1)
              · rw [crawlMeasure]
                dsimp only
                rw [List.length_append]
                omega

/-- C6: `processed_sitemaps` never contains duplicates and coincides with
the list of sitemaps actually fetched (each distinct sitemap is fetched
at most once), and on any finite sitemap graph — cyclic or
self-referential included — the traversal loop reaches its own exit
condition with finite fuel. -/
theorem C6_cycle_safety (docs : List (String × FetchResult)) (seed : String)
    (max_urls : Int) (stop : Option (Nat → Bool)) :
    (∀ (net : String → FetchResult) (url : String) (fuel : Nat),
      (extract_urls_recursive net url max_urls stop
        fuel).1.processed_sitemaps.Nodup ∧
      (extract_urls_recursive net url max_urls stop fuel).1.fetch_log =
        (extract_urls_recursive net url max_urls stop
          fuel).1.processed_sitemaps) ∧
    (∃ fuel,
      (extract_urls_recursive (netOf docs) seed max_urls stop fuel).2
        = true) := by
  constructor
  · intro net url fuel
    have h := (crawlLoop_main net max_urls stop fuel (initState url)).2.1
      ⟨by simp [initState], by simp [initState], by simp [initState], rfl⟩
    exact ⟨h.2.2.1, h.2.2.2⟩
  · refine ⟨crawlMeasure seed docs (initState seed) + 1, ?_⟩
    apply crawlLoop_terminates
    · intro u hu
      have : u = seed := by simpa [initState] using hu
      subst this
      exact seed_mem_universe u docs
    · omega

/-- Witness for C6 on the two-node cyclic fixture (`s` lists itself and
`t`; `t` lists `s`). -/
theorem C6_cycle_safety_witness :
    ((extract_urls_recursive (netOf exDocsCyc) "s" 100 none
        10).1.processed_sitemaps.Nodup ∧
      (extract_urls_recursive (netOf exDocsCyc) "s" 100 none
        10).1.fetch_log =
        (extract_urls_recursive (netOf exDocsCyc) "s" 100 none
          10).1.processed_sitemaps) ∧
    (∃ fuel,
      (extract_urls_recursive (netOf exDocsCyc) "s" 100 none fuel).2
        = true) := by
  have h := C6_cycle_safety exDocsCyc "s" 100 none
  exact ⟨h.1 (netOf exDocsCyc) "s" 10, h.2⟩

/-- With no cancellation, the completion loop of `analyze_urls` collects
every pending result and calls the progress callback once per result with
`completed / total`. -/
lemma analyzeLoop_none (total : Nat) :
    ∀ (pending : List SeoProbeResult) (completed : Nat)
      (results : List SeoProbeResult) (progress : List ℚ),
      analyzeLoop total none pending completed results progress =
        (results ++ pending,
         progress ++ (List.range pending.length).map
           (fun k => ((completed + k + 1 : Nat) : ℚ) / (total : ℚ))) := by
  intro pending
  induction pending with
  | nil =>
    intro completed results progress
    simp [analyzeLoop]
  | cons res rest ih =>
    intro completed results progress
    have hstep : analyzeLoop total none (res :: rest) completed results
        progress =
        analyzeLoop total none rest (completed + 1) (results ++ [res])
          (progress ++ [((completed + 1 : ℚ)) / (total : ℚ)]) := by
      rw [analyzeLoop]
      simp [stopNow]
    rw [hstep, ih]
    rw [Prod.mk.injEq]
    refine ⟨by simp, ?_⟩
    rw [List.append_assoc]
    congr 1
    rw [List.length_cons, List.range_succ_eq_map, List.map_cons,
      List.map_map, List.singleton_append]
    congr 1
    · push_cast
      ring
    · congr 1
      funext k
      simp only [Function.comp]
      push_cast
      ring

/-- C9: for a non-empty batch of n URLs and no cancellation, the progress
callback is invoked exactly n times, once after each completed probe,
with `completedCount / n` — a strictly increasing sequence ending at
exactly 1.  (Python's float division is modelled exactly, in `ℚ`.) -/
theorem C9_progress_monotone (completions : List SeoProbeResult)
    (h : completions ≠ []) :
    (analyze_urls completions none).2.length = completions.length ∧
    (analyze_urls completions none).2 =
      (List.range completions.length).map
        (fun k => ((k + 1 : Nat) : ℚ) / (completions.length : ℚ)) ∧
    List.Pairwise (· < ·) (analyze_urls completions none).2 ∧
    (analyze_urls completions none).2.getLast? = some 1 := by
  have hform : (analyze_urls completions none).2 =
      (List.range completions.length).map
        (fun k => ((k + 1 : Nat) : ℚ) / (completions.length : ℚ)) := by
    rw [analyze_urls, analyzeLoop_none]
    simp
  have hn : 0 < completions.length := List.length_pos.mpr h
  refine ⟨by rw [hform]; simp, hform, ?_, ?_⟩
  · rw [hform]
    refine List.Pairwise.map _ ?_ (List.pairwise_lt_range _)
    intro a b hab
    rw [div_lt_div_iff_of_pos_right (by exact_mod_cast hn)]
    exact_mod_cast Nat.succ_lt_succ hab
  · obtain ⟨m, hm⟩ : ∃ m, completions.length = m + 1 :=
      ⟨completions.length - 1, by omega⟩
    rw [hform, hm, List.range_succ, List.map_append, List.map_singleton,
      List.getLast?_concat, Option.some_inj]
    exact div_self (by exact_mod_cast Nat.succ_ne_zero m)

/-- Witness for C9 on a two-element batch. -/
theorem C9_progress_monotone_witness :
    (analyze_urls exCompletions none).2.length = exCompletions.length ∧
    List.Pairwise (· < ·) (analyze_urls exCompletions none).2 ∧
    (analyze_urls exCompletions none).2.getLast? = some 1 := by
  have h := C9_progress_monotone exCompletions (by simp [exCompletions])
  exact ⟨h.1, h.2.2.1, h.2.2.2⟩
